import Mathlib

/-!
krun: a shallow embedding of the pod lifecycle controller.

The development follows the Go sources of the repository:

* `util.go`   — `lookup`, `parseKVPairs`, `parseTolerations`
* `pod.go`    — `CreatePod` (construction of the pod object), `WaitForPodRunningWithTimeout`,
  `DeletePod`
* `main.go`   — `run`

Go strings are modelled by Lean strings.  The only separators the program splits on are the
one-byte ASCII characters "=" and ":", so splitting at the level of characters agrees with
Go's byte-level splitting.
-/

namespace Krun


/-! ## Go errors -/

/-- Go error values as the program builds them: `errorString` is what `fmt.Errorf` returns for a
format without the wrapping verb, `wrapError` (message, wrapped error) is what it returns for a
format with one `%w`. -/
inductive GoError where
  | errorString (msg : String)
  | wrapError (msg : String) (err : GoError)
deriving DecidableEq, Repr

namespace GoError

/-- The method `Error()`: the formatted message. -/
def Error : GoError → String
  | errorString msg => msg
  | wrapError msg _ => msg

/-- The function `errors.Is`: the error itself or one on its `Unwrap` chain equals the target. -/
def Is : GoError → GoError → Bool
  | errorString msg, target => decide (errorString msg = target)
  | wrapError msg err, target => decide (wrapError msg err = target) || Is err target

end GoError

/-- The call `fmt.Errorf(pre + "%w" + post, err)` with the other verbs already substituted. -/
def errorfW (pre : String) (err : GoError) (post : String) : GoError :=
  GoError.wrapError (pre ++ err.Error ++ post) err

/-- util.go: `var ErrInvalidArg = fmt.Errorf("invalid argument")`. -/
def ErrInvalidArg : GoError := GoError.errorString "invalid argument"

/-- pod.go: `var ErrInvalidPodStatus = fmt.Errorf("invalid pod status")`. -/
def ErrInvalidPodStatus : GoError := GoError.errorString "invalid pod status"

/-! ## `strings.SplitN` (Go standard library), for a one-character separator -/

/-- The function `strings.Index` for a one-character separator: position of its first
occurrence, `none` for Go's `-1`. -/
def indexChar (sep : Char) : List Char → Option Nat
  | [] => none
  | c :: cs => if c = sep then some 0 else (indexChar sep cs).map (· + 1)

/-- The loop of `strings.genSplit`: `k` is the number of cuts still allowed (`n - 1 - i`). -/
def splitLoop (sep : Char) : Nat → List Char → List (List Char)
  | 0, s => [s]
  | k + 1, s =>
    match indexChar sep s with
    | none => [s]
    | some m => s.take m :: splitLoop sep k (s.drop (m + 1))

/-- The function `strings.SplitN(s, sep, n)` for `n ≥ 0` and a one-character separator:
`n = 0` gives nil, and `n` is capped at `len(s) + 1` before the loop. -/
def SplitN (s : String) (sep : Char) (n : Nat) : List String :=
  if n = 0 then []
  else (splitLoop sep (min n (s.data.length + 1) - 1) s.data).map String.mk

/-! ## util.go -/

/-- util.go `lookup`: the element at `idx`, or `fallback` when `idx` is out of range. -/
def lookup {T : Type} (arr : List T) (idx : Int) (fallback : T) : T :=
  if idx < 0 ∨ idx ≥ (arr.length : Int) then fallback
  else arr.getD idx.toNat fallback

/-- A Go map with string keys: its entries, one per key.  `len` is the length of the list.
The order of the list is not observable in Go; iteration goes through `rangeOrder` below. -/
abbrev GoMap (V : Type) := List (String × V)

/-- A Go `map[string]string`. -/
abbrev StrMap := GoMap String

/-- The assignment `m[k] = v`: overwrite the entry of `k`, or add one. -/
def mapSet {V : Type} : GoMap V → String → V → GoMap V
  | [], k, v => [(k, v)]
  | (k', v') :: m, k, v => if k' = k then (k, v) :: m else (k', v') :: mapSet m k v

/-- The expression `m[k]` with presence: the value stored under `k`. -/
def mapGet {V : Type} : GoMap V → String → Option V
  | [], _ => none
  | (k', v') :: m, k => if k' = k then some v' else mapGet m k

/-- The builtin `len` on a map or slice that may be nil: nil has length 0. -/
def goLen {α : Type} : Option (List α) → Nat
  | none => 0
  | some xs => xs.length

/-- The loop of `parseKVPairs` over the remaining labels, `result` being the map so far.
The pair is Go's `(map, error)`; `none` is `nil`. -/
def parseKVPairsLoop (result : StrMap) : List String → Option StrMap × Option GoError
  | [] => (some result, none)
  | label :: rest =>
    let parts := SplitN label '=' 2
    if parts.length ≠ 2 then
      (none, some (errorfW "" ErrInvalidArg (": invalid kv format: " ++ label)))
    else
      parseKVPairsLoop (mapSet result (parts.getD 0 "") (parts.getD 1 "")) rest

/-- util.go `parseKVPairs`. -/
def parseKVPairs (labels : List String) : Option StrMap × Option GoError :=
  parseKVPairsLoop [] labels

/-- The Kubernetes type `v1.Toleration`, restricted to the fields the program sets. -/
structure Toleration where
  Key : String
  Operator : String
  Value : String
  Effect : String
deriving DecidableEq, Repr

/-- The loop of `parseTolerations` over the remaining strings, `result` being the slice so far. -/
def parseTolerationsLoop (result : List Toleration) :
    List String → Option (List Toleration) × Option GoError
  | [] => (some result, none)
  | toleration :: rest =>
    let parts := SplitN toleration ':' 4
    if parts.length < 1 then
      (none, some (errorfW "" ErrInvalidArg
        (": invalid toleration format: \x27" ++ toleration ++
          "\x27, expected \x27key:operator:value:effect\x27")))
    else
      let t : Toleration :=
        { Key := lookup parts 0 ""
          Operator := lookup parts 1 ""
          Value := lookup parts 2 ""
          Effect := lookup parts 3 "" }
      parseTolerationsLoop (result ++ [t]) rest

/-- util.go `parseTolerations`. -/
def parseTolerations (tolerations : List String) : Option (List Toleration) × Option GoError :=
  parseTolerationsLoop [] tolerations

/-! ## pod.go: the pod object -/

/-- The Kubernetes type `v1.ResourceRequirements`; a list that was never assigned is `none`.
`Q` is the type `resource.Quantity`. -/
structure ResourceRequirements (Q : Type) where
  Limits : Option (GoMap Q)
  Requests : Option (GoMap Q)
deriving DecidableEq, Repr

/-- The Kubernetes type `v1.EnvVar`. -/
structure EnvVar where
  Name : String
  Value : String
deriving DecidableEq, Repr

/-- The Kubernetes type `v1.Container`, restricted to the fields the program sets. -/
structure Container (Q : Type) where
  Name : String
  Image : String
  Command : List String
  Stdin : Bool
  TTY : Bool
  Resources : ResourceRequirements Q
  Env : Option (List EnvVar)
deriving DecidableEq, Repr

/-- The Kubernetes type `metav1.ObjectMeta`, restricted to the fields the program sets. -/
structure ObjectMeta where
  GenerateName : String
  Labels : Option StrMap
deriving DecidableEq, Repr

/-- The Kubernetes type `v1.PodSpec`, restricted to the fields the program sets. -/
structure PodSpec (Q : Type) where
  Containers : List (Container Q)
  RestartPolicy : String
  ActiveDeadlineSeconds : Option Int
  Tolerations : Option (List Toleration)
  NodeSelector : Option StrMap
  ServiceAccountName : String
deriving DecidableEq, Repr

/-- The Kubernetes type `v1.Pod`, restricted to the fields the program sets. -/
structure Pod (Q : Type) where
  ObjectMeta : ObjectMeta
  Spec : PodSpec Q
deriving DecidableEq, Repr

/-- pod.go `createPodOptions`. -/
structure createPodOptions where
  command : String
  args : List String
  image : String
  serviceAccount : String
  labels : List String
  tolerations : List String
  nodeSelector : List String
  requestsCPU : String
  requestsMem : String
  limitsCPU : String
  limitsMem : String
  activeDeadline : Int
  env : List String
deriving DecidableEq, Repr

/-- pod.go: `PodPrefix = "krun-"`. -/
def PodPrefix : String := "krun-"

/-- The constants `v1.ResourceCPU` and `v1.ResourceMemory`. -/
def ResourceCPU : String := "cpu"

def ResourceMemory : String := "memory"

/-- The constant `v1.RestartPolicyNever`. -/
def RestartPolicyNever : String := "Never"

/-- How a Go function call ends: it returns a value, returns an error, or panics. -/
inductive Outcome (α : Type) where
  | value (a : α)
  | error (err : GoError)
  | panicked
deriving DecidableEq, Repr

/-- The assignment `pod.Spec.Containers[0].f = ...`: an update of the first container. -/
def setContainer0 {Q : Type} (pod : Pod Q) (f : Container Q → Container Q) : Pod Q :=
  match pod.Spec.Containers with
  | [] => pod
  | c :: cs => { pod with Spec := { pod.Spec with Containers := f c :: cs } }

/-- pod.go lines 62-81: the pod literal `CreatePod` starts from. -/
def basePod {Q : Type} (opts : createPodOptions) : Pod Q :=
  { ObjectMeta := { GenerateName := PodPrefix, Labels := none }
    Spec :=
      { Containers :=
          [{ Name := "main"
             Image := opts.image
             Command := opts.command :: opts.args
             Stdin := true
             TTY := true
             Resources := { Limits := none, Requests := none }
             Env := none }]
        RestartPolicy := RestartPolicyNever
        ActiveDeadlineSeconds := some opts.activeDeadline
        Tolerations := none
        NodeSelector := none
        ServiceAccountName := "" } }

/-- One of the four blocks of pod.go lines 120-138:
`if s != "" { list[name] = resource.MustParse(s); set = true }`.
`MustParse` is the library parser, `none` standing for its panic; the result is `none` when it
panicked. -/
def setQuantity {Q : Type} (MustParse : String → Option Q) (list : GoMap Q) (set : Bool)
    (name : String) (s : String) : Option (GoMap Q × Bool) :=
  if s ≠ "" then
    match MustParse s with
    | none => none
    | some q => some (mapSet list name q, true)
  else some (list, set)

/-- pod.go lines 114-152: the resource requests and limits of the container. -/
def applyResources {Q : Type} (MustParse : String → Option Q) (opts : createPodOptions)
    (pod : Pod Q) : Outcome (Pod Q) :=
  match setQuantity MustParse [] false ResourceCPU opts.requestsCPU with
  | none => Outcome.panicked
  | some (requests, requestsSet) =>
  match setQuantity MustParse requests requestsSet ResourceMemory opts.requestsMem with
  | none => Outcome.panicked
  | some (requests, requestsSet) =>
  match setQuantity MustParse [] false ResourceCPU opts.limitsCPU with
  | none => Outcome.panicked
  | some (limits, limitsSet) =>
  match setQuantity MustParse limits limitsSet ResourceMemory opts.limitsMem with
  | none => Outcome.panicked
  | some (limits, limitsSet) =>
    if requestsSet || limitsSet then
      let resources : ResourceRequirements Q :=
        { Requests := if requestsSet then some requests else none
          Limits := if limitsSet then some limits else none }
      Outcome.value (setContainer0 pod fun c => { c with Resources := resources })
    else Outcome.value pod

/-- pod.go lines 154-166: the environment of the container.  `rangeOrder` is the order in which
the Go runtime visits the entries of the map in `for k, v := range envMap`. -/
def applyEnv {Q : Type} (rangeOrder : StrMap → StrMap) (opts : createPodOptions)
    (pod : Pod Q) : Outcome (Pod Q) :=
  if opts.env.length > 0 then
    match parseKVPairs opts.env with
    | (_, some err) => Outcome.error (errorfW "failed to parse env vars: " err "")
    | (envMap, none) =>
      let envVars : List EnvVar :=
        (rangeOrder (envMap.getD [])).map fun kv => { Name := kv.1, Value := kv.2 }
      Outcome.value (setContainer0 pod fun c => { c with Env := some envVars })
  else Outcome.value pod

/-- pod.go lines 62-166: the pod object `CreatePod` submits, or the error or panic that ends
the call before the submission. -/
def buildPod {Q : Type} (MustParse : String → Option Q) (rangeOrder : StrMap → StrMap)
    (opts : createPodOptions) : Outcome (Pod Q) :=
  let pod : Pod Q := basePod opts
  match parseKVPairs opts.labels with
  | (_, some err) => Outcome.error (errorfW "failed to parse labels: " err "")
  | (labels, none) =>
  let pod : Pod Q :=
    if goLen labels > 0 then { pod with ObjectMeta := { pod.ObjectMeta with Labels := labels } }
    else pod
  match parseTolerations opts.tolerations with
  | (_, some err) => Outcome.error (errorfW "failed to parse tolerations: " err "")
  | (tolerations, none) =>
  let pod : Pod Q :=
    if goLen tolerations > 0 then { pod with Spec := { pod.Spec with Tolerations := tolerations } }
    else pod
  match parseKVPairs opts.nodeSelector with
  | (_, some err) => Outcome.error (errorfW "failed to parse node selector: " err "")
  | (nodeSelector, none) =>
  let pod : Pod Q :=
    if goLen nodeSelector > 0 then
      { pod with Spec := { pod.Spec with NodeSelector := nodeSelector } }
    else pod
  let pod : Pod Q :=
    if opts.serviceAccount ≠ "" then
      { pod with Spec := { pod.Spec with ServiceAccountName := opts.serviceAccount } }
    else pod
  match applyResources MustParse opts pod with
  | Outcome.panicked => Outcome.panicked
  | Outcome.error err => Outcome.error err
  | Outcome.value pod => applyEnv rangeOrder opts pod

/-- The Go runtime may visit the entries of a map in any order, each entry once. -/
def ValidRangeOrder (rangeOrder : StrMap → StrMap) : Prop :=
  ∀ m, (rangeOrder m).Perm m

/-! ## Contexts and timeouts -/

/-- A `context.Context` as the program builds them, observed at the moment it is handed to a
call: `background` is `context.Background()`, `cancelCtx` a context made by
`context.WithCancel` together with whether its `cancel` has been called, `timerCtx` a context
made by `context.WithTimeout` (timeout in seconds) whose timer has just been started. -/
inductive Ctx where
  | background
  | cancelCtx (cancelled : Bool) (parent : Ctx)
  | timerCtx (seconds : Nat) (parent : Ctx)
deriving DecidableEq, Repr

/-- Whether the context is already cancelled: its own `cancel` was called, or an ancestor is
cancelled (cancellation propagates from parent to child). -/
def Ctx.cancelled : Ctx → Bool
  | Ctx.background => false
  | Ctx.cancelCtx c parent => c || parent.cancelled
  | Ctx.timerCtx _ parent => parent.cancelled

/-- pod.go: the timeouts, in seconds. -/
def PodGetTimeout : Nat := 10

def PodCreateTimeout : Nat := 60

def PodDeleteTimeout : Nat := 300

/-! ## pod.go: `CreatePod` -/

/-- pod.go `CreatePod`: the pod object is built and submitted on a child of the context
received; `apiCreate` is the answer of the API server to `Pods(namespace).Create`, the name of
the created pod and the error. -/
def CreatePod {Q : Type} (MustParse : String → Option Q) (rangeOrder : StrMap → StrMap)
    (apiCreate : Ctx → String → Pod Q → String × Option GoError)
    (ctx : Ctx) (ns : String) (opts : createPodOptions) : Outcome String :=
  let createCtx := Ctx.timerCtx PodCreateTimeout ctx
  match buildPod MustParse rangeOrder opts with
  | Outcome.panicked => Outcome.panicked
  | Outcome.error err => Outcome.error err
  | Outcome.value pod =>
    match apiCreate createCtx ns pod with
    | (_, some err) => Outcome.error (errorfW "failed to create pod: " err "")
    | (createdName, none) => Outcome.value createdName

/-! ## pod.go: `WaitForPodRunningWithTimeout` -/

/-- The constants `v1.PodPending`, `v1.PodRunning`, `v1.PodSucceeded`, `v1.PodFailed` and
`v1.PodUnknown`; a `v1.PodPhase` is a string. -/
def PodPending : String := "Pending"

def PodRunning : String := "Running"

def PodSucceeded : String := "Succeeded"

def PodFailed : String := "Failed"

def PodUnknown : String := "Unknown"

/-- How a call of `WaitForPodRunningWithTimeout` stands once the scripted answers are used up:
it has returned (`none` is a nil error), or it is still waiting for the next tick. -/
inductive WaitResult where
  | returned (err : Option GoError)
  | waiting
deriving DecidableEq, Repr

/-- The loop `for range ticker.C` of `WaitForPodRunningWithTimeout`.  The script holds the
answers of the successive `Get` calls (the phase of the fetched pod, or the error); `polls` is
the number of `Get` calls made so far.  The result carries the number of `Get` calls made. -/
def waitLoop : List (Except GoError String) → Nat → WaitResult × Nat
  | [], polls => (WaitResult.waiting, polls)
  | Except.error err :: _, polls =>
    (WaitResult.returned (some (errorfW "failed to get pod status: " err "")), polls + 1)
  | Except.ok phase :: rest, polls =>
    if phase = PodRunning then (WaitResult.returned none, polls + 1)
    else if phase = PodPending then waitLoop rest (polls + 1)
    else if phase = PodFailed ∨ phase = PodSucceeded ∨ phase = PodUnknown then
      (WaitResult.returned
        (some (errorfW "" ErrInvalidPodStatus (": pod entered terminal phase: " ++ phase))),
        polls + 1)
    else waitLoop rest (polls + 1)

/-- pod.go `WaitForPodRunningWithTimeout`, run against the scripted answers of `Get`. -/
def WaitForPodRunningWithTimeout (script : List (Except GoError String)) : WaitResult × Nat :=
  waitLoop script 0

/-! ## main.go: `run` -/

/-- main.go `KrunOptions`. -/
structure KrunOptions where
  Image : String
  Namespace : String
  ServiceAccount : String
  Timeout : Int
  Verbose : Bool
  Labels : List String
  Tolerations : List String
  NodeSelector : List String
  RequestsCPU : String
  RequestsMem : String
  LimitsCPU : String
  LimitsMem : String
  KeepPod : Bool
  Env : List String
  Command : String
  Args : List String
deriving DecidableEq, Repr

/-- What the world outside `run` answers during one session: the results of the three manager
calls of the main flow, given the context and arguments they receive, and the answer of the
API server to the delete request `Pods(namespace).Delete(deleteCtx, podName, ...)`.
An error of `none` is nil. -/
structure Session where
  CreatePod : Ctx → String → createPodOptions → String × Option GoError
  WaitForPodRunningWithTimeout : Ctx → String → String → Option GoError
  AttachToPod : Ctx → String → String → Option GoError
  Delete : Ctx → String → String → Option GoError

/-- The calls `run` makes, in order, each with the context it hands over. -/
inductive Event where
  | CreatePod (ctx : Ctx) (ns : String) (opts : createPodOptions)
  | WaitForPodRunningWithTimeout (ctx : Ctx) (ns podName : String)
  | AttachToPod (ctx : Ctx) (ns podName : String)
  | signalStop
  | DeletePod (ctx : Ctx) (ns podName : String)
  | Delete (deleteCtx : Ctx) (ns podName : String)
  | Errorf (msg : String)
deriving DecidableEq, Repr

/-- pod.go `DeletePod`: the request is issued on a child of the context received. -/
def DeletePod (s : Session) (ctx : Ctx) (ns podName : String) :
    Option GoError × List Event :=
  let deleteCtx := Ctx.timerCtx PodDeleteTimeout ctx
  match s.Delete deleteCtx ns podName with
  | some err =>
    (some (errorfW "failed to delete pod: " err ""), [Event.Delete deleteCtx ns podName])
  | none => (none, [Event.Delete deleteCtx ns podName])

/-- The context `ctx` of `run` (main.go line 51) as seen at step `step` of the session:
step 0 is the call of `CreatePod`, 1 the call of `WaitForPodRunningWithTimeout`, 2 the call of
`AttachToPod`, 3 the deferred cleanup.  `interruptAt = some t` says that the signal goroutine
called `cancel()` before step `t`; `none` that no interrupt arrived before the cleanup. -/
def sessionCtx (interruptAt : Option Nat) (step : Nat) : Ctx :=
  Ctx.cancelCtx (match interruptAt with
    | some t => decide (t ≤ step)
    | none => false) Ctx.background

/-- main.go lines 93-103: the deferred cleanup of `run`. -/
def cleanup (opts : KrunOptions) (s : Session) (ctx : Ctx) (ns podName : String) :
    List Event :=
  if opts.KeepPod then [Event.signalStop]
  else
    match DeletePod s ctx ns podName with
    | (some err, events) =>
      [Event.signalStop, Event.DeletePod ctx ns podName] ++ events ++
        [Event.Errorf ("Failed to delete pod: " ++ err.Error)]
    | (none, events) => [Event.signalStop, Event.DeletePod ctx ns podName] ++ events

/-- main.go lines 105-114: the main flow of `run` after the pod was created. -/
def mainFlow (s : Session) (interruptAt : Option Nat) (ns podName : String) :
    Option GoError × List Event :=
  match s.WaitForPodRunningWithTimeout (sessionCtx interruptAt 1) ns podName with
  | some err =>
    (some (errorfW "failed to wait for pod to start: " err ""),
      [Event.WaitForPodRunningWithTimeout (sessionCtx interruptAt 1) ns podName])
  | none =>
    match s.AttachToPod (sessionCtx interruptAt 2) ns podName with
    | some err =>
      (some (errorfW "failed to attach to pod: " err ""),
        [Event.WaitForPodRunningWithTimeout (sessionCtx interruptAt 1) ns podName,
          Event.AttachToPod (sessionCtx interruptAt 2) ns podName])
    | none =>
      (none,
        [Event.WaitForPodRunningWithTimeout (sessionCtx interruptAt 1) ns podName,
          Event.AttachToPod (sessionCtx interruptAt 2) ns podName])

/-- main.go lines 56-70: the options `run` hands to `CreatePod`. -/
def podOptsOf (opts : KrunOptions) : createPodOptions :=
  { image := opts.Image
    command := opts.Command
    args := opts.Args
    serviceAccount := opts.ServiceAccount
    labels := opts.Labels
    tolerations := opts.Tolerations
    nodeSelector := opts.NodeSelector
    requestsCPU := opts.RequestsCPU
    requestsMem := opts.RequestsMem
    limitsCPU := opts.LimitsCPU
    limitsMem := opts.LimitsMem
    activeDeadline := opts.Timeout
    env := opts.Env }

/-- main.go lines 72-75: the namespace of the session; `configNamespace` is
`config.Namespace()`. -/
def namespaceOf (opts : KrunOptions) (configNamespace : String) : String :=
  if opts.Namespace = "" then configNamespace else opts.Namespace

/-- main.go `run`: the error it returns (`none` is nil) and the calls it made.  The signal
handler is installed only after `CreatePod` returned, so `CreatePod` receives the context
not cancelled; the deferred cleanup runs after the main flow, whatever that returned, and
cannot change the returned error (the result of `run` is not a named result). -/
def run (opts : KrunOptions) (configNamespace : String) (s : Session)
    (interruptAt : Option Nat) : Option GoError × List Event :=
  let podOpts := podOptsOf opts
  let ns := namespaceOf opts configNamespace
  let ctx := Ctx.cancelCtx false Ctx.background
  match s.CreatePod ctx ns podOpts with
  | (_, some err) =>
    (some (errorfW "failed to create pod: " err ""), [Event.CreatePod ctx ns podOpts])
  | (podName, none) =>
    let flow := mainFlow s interruptAt ns podName
    (flow.1, [Event.CreatePod ctx ns podOpts] ++ flow.2 ++
      cleanup opts s (sessionCtx interruptAt 3) ns podName)

/-- The outcome of the `CreatePod` call of `run`: the pod name and the error. -/
def createOutcome (opts : KrunOptions) (configNamespace : String) (s : Session) :
    String × Option GoError :=
  s.CreatePod (Ctx.cancelCtx false Ctx.background) (namespaceOf opts configNamespace)
    (podOptsOf opts)

/-- The outcome of the `WaitForPodRunningWithTimeout` call of `run`, when it is made. -/
def waitOutcome (opts : KrunOptions) (configNamespace : String) (s : Session)
    (interruptAt : Option Nat) : Option GoError :=
  s.WaitForPodRunningWithTimeout (sessionCtx interruptAt 1) (namespaceOf opts configNamespace)
    (createOutcome opts configNamespace s).1

/-- The outcome of the `AttachToPod` call of `run`, when it is made. -/
def attachOutcome (opts : KrunOptions) (configNamespace : String) (s : Session)
    (interruptAt : Option Nat) : Option GoError :=
  s.AttachToPod (sessionCtx interruptAt 2) (namespaceOf opts configNamespace)
    (createOutcome opts configNamespace s).1

/-- The number of `DeletePod` calls among the calls made. -/
def deletePodCalls : List Event → Nat
  | [] => 0
  | Event.DeletePod _ _ _ :: rest => deletePodCalls rest + 1
  | _ :: rest => deletePodCalls rest

/-- The contexts on which delete requests were issued to the API server. -/
def deleteRequestCtxs : List Event → List Ctx
  | [] => []
  | Event.Delete deleteCtx _ _ :: rest => deleteCtx :: deleteRequestCtxs rest
  | _ :: rest => deleteRequestCtxs rest

/-- The contexts `run` handed to `DeletePod`. -/
def deletePodCtxs : List Event → List Ctx
  | [] => []
  | Event.DeletePod ctx _ _ :: rest => ctx :: deletePodCtxs rest
  | _ :: rest => deletePodCtxs rest

/-! ## Example sessions -/

/-- Options of an example invocation: `krun -i alpine`. -/
def exampleOpts : KrunOptions :=
  { Image := "alpine", Namespace := "", ServiceAccount := "", Timeout := 300, Verbose := false,
    Labels := [], Tolerations := [], NodeSelector := [], RequestsCPU := "", RequestsMem := "",
    LimitsCPU := "", LimitsMem := "", KeepPod := false, Env := [], Command := "/bin/sh",
    Args := [] }

/-- The error the client library returns for a request on a cancelled context. -/
def errCanceled : GoError := GoError.errorString "context canceled"

/-- An example session: the pod is created as "krun-x7k2p", and every later call fails exactly
when the context it receives is already cancelled. -/
def exampleSession : Session :=
  { CreatePod := fun _ _ _ => ("krun-x7k2p", none)
    WaitForPodRunningWithTimeout := fun ctx _ _ => if ctx.cancelled then some errCanceled else none
    AttachToPod := fun ctx _ _ => if ctx.cancelled then some errCanceled else none
    Delete := fun ctx _ _ => if ctx.cancelled then some errCanceled else none }

/-- An example session interrupted while `run` waits for the pod: the pod is created as
"krun-x7k2p", the wait is aborted by the cancellation, and the API server is reachable, so that
the delete request fails exactly when it is issued on an already cancelled context. -/
def interruptedSession : Session :=
  { CreatePod := fun _ _ _ => ("krun-x7k2p", none)
    WaitForPodRunningWithTimeout := fun _ _ _ =>
      some (errorfW "failed to get pod status: " errCanceled "")
    AttachToPod := fun _ _ _ => none
    Delete := fun ctx _ _ => if ctx.cancelled then some errCanceled else none }

/-! ## Notions used in the statements about `WaitForPodRunningWithTimeout` -/

/-- A phase the switch of `WaitForPodRunningWithTimeout` has no case for. -/
def unrecognizedPhase (phase : String) : Prop :=
  phase ∉ [PodPending, PodRunning, PodSucceeded, PodFailed, PodUnknown]

/-! ## Notions used in the statements about `parseKVPairs` -/

/-- The text of an item before its first "=" (the whole item when it has none). -/
def kvKey (label : String) : String :=
  String.mk (label.data.takeWhile (fun c => decide (c ≠ '=')))

/-- Everything in an item after its first "=". -/
def kvValue (label : String) : String :=
  String.mk ((label.data.dropWhile (fun c => decide (c ≠ '='))).drop 1)

/-- The map `parseKVPairs` has built after the items `labels`, starting from `acc`. -/
def kvFold (acc : StrMap) (labels : List String) : StrMap :=
  labels.foldl (fun m l => mapSet m (kvKey l) (kvValue l)) acc

/-! ## Notions used in the statements about `parseTolerations` -/

/-- The ":"-separated fields of a toleration string. -/
def colonFields (toleration : String) : List (List Char) :=
  toleration.data.splitOn ':'

/-- The toleration whose key, operator, value and effect are the first, second, third and
fourth ":"-separated field of the string, a missing field being empty. -/
def tolerationOfFields (toleration : String) : Toleration :=
  { Key := String.mk ((colonFields toleration).getD 0 [])
    Operator := String.mk ((colonFields toleration).getD 1 [])
    Value := String.mk ((colonFields toleration).getD 2 [])
    Effect := String.mk ((colonFields toleration).getD 3 []) }

/-- The toleration whose key, operator and value are the first, second and third
":"-separated field of the string, a missing field being empty, and whose effect is everything
after the third ":" (the fourth and later fields, joined by ":"). -/
def tolerationOfString (toleration : String) : Toleration :=
  { Key := String.mk ((colonFields toleration).getD 0 [])
    Operator := String.mk ((colonFields toleration).getD 1 [])
    Value := String.mk ((colonFields toleration).getD 2 [])
    Effect := String.mk ([':'].intercalate ((colonFields toleration).drop 3)) }

/-! ## Notions used in the statements about the pod object -/

/-- The entries of a resource list after the two blocks that fill it: the cpu entry when the
cpu string is not empty, then the memory entry when the memory string is not empty. -/
def quantityEntries {Q : Type} (MustParse : String → Option Q) (cpu mem : String) : GoMap Q :=
  (if cpu = "" then [] else
    match MustParse cpu with
    | some q => [(ResourceCPU, q)]
    | none => []) ++
  (if mem = "" then [] else
    match MustParse mem with
    | some q => [(ResourceMemory, q)]
    | none => [])

/-- The resource list assigned to the container: none when both strings are empty. -/
def quantityList {Q : Type} (MustParse : String → Option Q) (cpu mem : String) :
    Option (GoMap Q) :=
  if cpu = "" ∧ mem = "" then none else some (quantityEntries MustParse cpu mem)

/-- The resource strings of the options are valid quantities: `resource.MustParse` does not
panic on those that are not empty. -/
def ValidQuantities {Q : Type} (MustParse : String → Option Q) (opts : createPodOptions) : Prop :=
  (opts.requestsCPU ≠ "" → MustParse opts.requestsCPU ≠ none) ∧
  (opts.requestsMem ≠ "" → MustParse opts.requestsMem ≠ none) ∧
  (opts.limitsCPU ≠ "" → MustParse opts.limitsCPU ≠ none) ∧
  (opts.limitsMem ≠ "" → MustParse opts.limitsMem ≠ none)

/-- The key=value lists of the options parse: every item holds an "=". -/
def ListsParse (opts : createPodOptions) : Prop :=
  (∀ l ∈ opts.labels, '=' ∈ l.data) ∧ (∀ l ∈ opts.nodeSelector, '=' ∈ l.data) ∧
  (∀ l ∈ opts.env, '=' ∈ l.data)

/-- The environment list built from the items of `env`, visited in the order `rangeOrder`. -/
def envVarsOf (rangeOrder : StrMap → StrMap) (env : List String) : List EnvVar :=
  (rangeOrder (kvFold [] env)).map fun kv => { Name := kv.1, Value := kv.2 }

/-- The pod object `CreatePod` submits when the lists parse and the quantities are valid. -/
def expectedPod {Q : Type} (MustParse : String → Option Q) (rangeOrder : StrMap → StrMap)
    (opts : createPodOptions) : Pod Q :=
  { ObjectMeta :=
      { GenerateName := PodPrefix
        Labels := if opts.labels = [] then none else some (kvFold [] opts.labels) }
    Spec :=
      { Containers :=
          [{ Name := "main"
             Image := opts.image
             Command := opts.command :: opts.args
             Stdin := true
             TTY := true
             Resources :=
               { Requests := quantityList MustParse opts.requestsCPU opts.requestsMem
                 Limits := quantityList MustParse opts.limitsCPU opts.limitsMem }
             Env := if opts.env = [] then none else some (envVarsOf rangeOrder opts.env) }]
        RestartPolicy := RestartPolicyNever
        ActiveDeadlineSeconds := some opts.activeDeadline
        Tolerations :=
          if opts.tolerations = [] then none
          else some (opts.tolerations.map tolerationOfString)
        NodeSelector :=
          if opts.nodeSelector = [] then none else some (kvFold [] opts.nodeSelector)
        ServiceAccountName := opts.serviceAccount } }

/-- The pod object before the resource blocks: lines 62-112 of pod.go, when the lists parse. -/
def podBeforeResources {Q : Type} (opts : createPodOptions) : Pod Q :=
  { ObjectMeta :=
      { GenerateName := PodPrefix
        Labels := if opts.labels = [] then none else some (kvFold [] opts.labels) }
    Spec :=
      { Containers :=
          [{ Name := "main"
             Image := opts.image
             Command := opts.command :: opts.args
             Stdin := true
             TTY := true
             Resources := { Limits := none, Requests := none }
             Env := none }]
        RestartPolicy := RestartPolicyNever
        ActiveDeadlineSeconds := some opts.activeDeadline
        Tolerations :=
          if opts.tolerations = [] then none
          else some (opts.tolerations.map tolerationOfString)
        NodeSelector :=
          if opts.nodeSelector = [] then none else some (kvFold [] opts.nodeSelector)
        ServiceAccountName := opts.serviceAccount } }

/-- Whether a resource list is set and holds an entry for the resource name. -/
def hasEntry {Q : Type} (list : Option (GoMap Q)) (name : String) : Prop :=
  ∃ m q, list = some m ∧ mapGet m name = some q

/-- Options of an example pod: only a CPU request is set. -/
def cpuOnlyOpts : createPodOptions :=
  { command := "/bin/sh", args := [], image := "alpine", serviceAccount := "", labels := [],
    tolerations := [], nodeSelector := [], requestsCPU := "100m", requestsMem := "",
    limitsCPU := "", limitsMem := "", activeDeadline := 300, env := [] }

/-- Options of an example pod with two environment variables and a label. -/
def envOpts : createPodOptions :=
  { command := "/bin/sh", args := ["-c", "env"], image := "alpine", serviceAccount := "",
    labels := ["app=krun"], tolerations := [], nodeSelector := [], requestsCPU := "",
    requestsMem := "", limitsCPU := "", limitsMem := "", activeDeadline := 300,
    env := ["A=1", "B=2"] }

/-- A stand-in for `resource.MustParse` in the examples: quantities are kept as their text, and
the text "x" is not a quantity. -/
def exampleMustParse (s : String) : Option String :=
  if s = "x" then none else some s

/-- A collection of the pod is either not set or not empty. -/
def absentOrNonEmpty {α : Type} (x : Option (List α)) : Prop :=
  x = none ∨ ∃ l, x = some l ∧ l ≠ []

/-- Two environment lists are both not set, or both set with the same elements, possibly in a
different order. -/
def SameEnv : Option (List EnvVar) → Option (List EnvVar) → Prop
  | none, none => True
  | some l1, some l2 => l1.Perm l2
  | _, _ => False

/-- Two pods are equal in every field except, possibly, the order of the environment lists of
their containers. -/
def SameUpToEnvOrder {Q : Type} (p1 p2 : Pod Q) : Prop :=
  p1.ObjectMeta = p2.ObjectMeta ∧
  ({ p1.Spec with Containers := [] } : PodSpec Q) = { p2.Spec with Containers := [] } ∧
  List.Forall₂
    (fun c1 c2 => ({ c1 with Env := none } : Container Q) = { c2 with Env := none } ∧
      SameEnv c1.Env c2.Env)
    p1.Spec.Containers p2.Spec.Containers

/-- Two builds end the same way: with the same error, with a panic, or with pods that are the
same up to the order of the environment list. -/
def BuildsAgree {Q : Type} : Outcome (Pod Q) → Outcome (Pod Q) → Prop
  | Outcome.value p1, Outcome.value p2 => SameUpToEnvOrder p1 p2
  | Outcome.error e1, Outcome.error e2 => e1 = e2
  | Outcome.panicked, Outcome.panicked => True
  | _, _ => False

/-! ## Properties of `run` -/

theorem deletePodCalls_append (xs ys : List Event) :
    deletePodCalls (xs ++ ys) = deletePodCalls xs + deletePodCalls ys := by
  induction xs with
  | nil => simp [deletePodCalls]
  | cons e xs ih =>
    cases e <;> simp [deletePodCalls, ih]
    omega

theorem deletePodCalls_mainFlow (s : Session) (i : Option Nat) (ns podName : String) :
    deletePodCalls (mainFlow s i ns podName).2 = 0 := by
  unfold mainFlow
  split
  · simp [deletePodCalls]
  · split <;> simp [deletePodCalls]

theorem deletePodCalls_DeletePod (s : Session) (ctx : Ctx) (ns podName : String) :
    deletePodCalls (DeletePod s ctx ns podName).2 = 0 := by
  unfold DeletePod
  simp only []
  split <;> simp [deletePodCalls]

theorem deletePodCalls_cleanup (opts : KrunOptions) (s : Session) (ctx : Ctx)
    (ns podName : String) :
    deletePodCalls (cleanup opts s ctx ns podName) = if opts.KeepPod then 0 else 1 := by
  unfold cleanup
  by_cases hk : opts.KeepPod = true
  · simp [hk, deletePodCalls]
  · have h2 := deletePodCalls_DeletePod s ctx ns podName
    rw [if_neg hk, if_neg hk]
    rcases hd : DeletePod s ctx ns podName with ⟨err, events⟩
    rw [hd] at h2
    cases err <;> simp [deletePodCalls, deletePodCalls_append] at h2 ⊢ <;> exact h2

/-- C1: in every session `run` calls `DeletePod` exactly once when `CreatePod` succeeded and the
keep-pod flag is off, whatever the wait and the attach returned, and never when `CreatePod`
failed or the keep-pod flag is on. -/
theorem run_deletePod_calls (opts : KrunOptions) (configNamespace : String) (s : Session)
    (interruptAt : Option Nat) :
    deletePodCalls (run opts configNamespace s interruptAt).2 =
      if (createOutcome opts configNamespace s).2 = none ∧ opts.KeepPod = false then 1 else 0 := by
  unfold run createOutcome
  simp only []
  split
  · rename_i name err heq
    simp [heq, deletePodCalls]
  · rename_i name heq
    simp [heq, deletePodCalls_append, deletePodCalls_mainFlow, deletePodCalls_cleanup,
      deletePodCalls]
    by_cases hk : opts.KeepPod = true <;> simp [hk]

theorem deletePodCtxs_append (xs ys : List Event) :
    deletePodCtxs (xs ++ ys) = deletePodCtxs xs ++ deletePodCtxs ys := by
  induction xs with
  | nil => simp [deletePodCtxs]
  | cons e xs ih => cases e <;> simp [deletePodCtxs, ih]

theorem deleteRequestCtxs_append (xs ys : List Event) :
    deleteRequestCtxs (xs ++ ys) = deleteRequestCtxs xs ++ deleteRequestCtxs ys := by
  induction xs with
  | nil => simp [deleteRequestCtxs]
  | cons e xs ih => cases e <;> simp [deleteRequestCtxs, ih]

theorem deleteCtxs_mainFlow (s : Session) (i : Option Nat) (ns podName : String) :
    deletePodCtxs (mainFlow s i ns podName).2 = [] ∧
      deleteRequestCtxs (mainFlow s i ns podName).2 = [] := by
  unfold mainFlow
  split
  · simp [deletePodCtxs, deleteRequestCtxs]
  · split <;> simp [deletePodCtxs, deleteRequestCtxs]

theorem deleteCtxs_cleanup (opts : KrunOptions) (s : Session) (ctx : Ctx) (ns podName : String)
    (hk : opts.KeepPod = false) :
    deletePodCtxs (cleanup opts s ctx ns podName) = [ctx] ∧
      deleteRequestCtxs (cleanup opts s ctx ns podName) = [Ctx.timerCtx PodDeleteTimeout ctx] := by
  unfold cleanup DeletePod
  simp only [hk]
  cases s.Delete (Ctx.timerCtx PodDeleteTimeout ctx) ns podName <;>
    simp [deletePodCtxs, deleteRequestCtxs]

/-- Whenever `run` gets to delete the pod, the context it hands to `DeletePod` is its own
session context, and the delete request goes out on a child of that context. -/
theorem run_delete_ctxs (opts : KrunOptions) (configNamespace : String) (s : Session)
    (interruptAt : Option Nat) (hc : (createOutcome opts configNamespace s).2 = none)
    (hk : opts.KeepPod = false) :
    deletePodCtxs (run opts configNamespace s interruptAt).2 = [sessionCtx interruptAt 3] ∧
      deleteRequestCtxs (run opts configNamespace s interruptAt).2 =
        [Ctx.timerCtx PodDeleteTimeout (sessionCtx interruptAt 3)] := by
  unfold createOutcome at hc
  unfold run
  simp only []
  split
  · rename_i name err heq
    rw [heq] at hc
    simp at hc
  · rename_i name heq
    have h1 := deleteCtxs_mainFlow s interruptAt (namespaceOf opts configNamespace) name
    have h2 := deleteCtxs_cleanup opts s (sessionCtx interruptAt 3)
      (namespaceOf opts configNamespace) name hk
    simp [deletePodCtxs_append, deleteRequestCtxs_append, h1, h2, deletePodCtxs,
      deleteRequestCtxs]

/-- C2: in the session interrupted during the wait, with the pod created and keep-pod off, the
context `run` hands to `DeletePod` is the cancelled session context itself, the delete request
is issued on an already cancelled child of it, and the request fails for that reason. -/
theorem run_delete_after_interrupt_uses_cancelled_ctx :
    deletePodCtxs (run exampleOpts "default" interruptedSession (some 2)).2 =
        [Ctx.cancelCtx true Ctx.background] ∧
      deleteRequestCtxs (run exampleOpts "default" interruptedSession (some 2)).2 =
        [Ctx.timerCtx 300 (Ctx.cancelCtx true Ctx.background)] ∧
      (Ctx.timerCtx 300 (Ctx.cancelCtx true Ctx.background)).cancelled = true ∧
      Event.Errorf "Failed to delete pod: failed to delete pod: context canceled" ∈
        (run exampleOpts "default" interruptedSession (some 2)).2 := by
  decide

/-- C3: the error `run` returns does not depend on what the delete request answers; it is nil
when the three steps succeed, and it is the wrapped error of the first step that failed
otherwise, whether or not the delete fails. -/
theorem run_result_ignores_delete (opts : KrunOptions) (configNamespace : String)
    (s : Session) (interruptAt : Option Nat) (del1 del2 : Ctx → String → String → Option GoError) :
    (run opts configNamespace { s with Delete := del1 } interruptAt).1 =
        (run opts configNamespace { s with Delete := del2 } interruptAt).1 ∧
      ((createOutcome opts configNamespace s).2 = none →
        waitOutcome opts configNamespace s interruptAt = none →
        attachOutcome opts configNamespace s interruptAt = none →
        (run opts configNamespace { s with Delete := del1 } interruptAt).1 = none) ∧
      (∀ err, (createOutcome opts configNamespace s).2 = some err →
        (run opts configNamespace { s with Delete := del1 } interruptAt).1 =
          some (errorfW "failed to create pod: " err "")) ∧
      (∀ err, (createOutcome opts configNamespace s).2 = none →
        waitOutcome opts configNamespace s interruptAt = some err →
        (run opts configNamespace { s with Delete := del1 } interruptAt).1 =
          some (errorfW "failed to wait for pod to start: " err "")) ∧
      (∀ err, (createOutcome opts configNamespace s).2 = none →
        waitOutcome opts configNamespace s interruptAt = none →
        attachOutcome opts configNamespace s interruptAt = some err →
        (run opts configNamespace { s with Delete := del1 } interruptAt).1 =
          some (errorfW "failed to attach to pod: " err "")) := by
  unfold waitOutcome attachOutcome createOutcome run mainFlow
  simp only []
  rcases hc : s.CreatePod (Ctx.cancelCtx false Ctx.background)
    (namespaceOf opts configNamespace) (podOptsOf opts) with ⟨name, cerr⟩
  cases cerr with
  | some e => simp
  | none =>
    simp only []
    cases hw : s.WaitForPodRunningWithTimeout (sessionCtx interruptAt 1)
      (namespaceOf opts configNamespace) name with
    | some e => simp
    | none =>
      cases ha : s.AttachToPod (sessionCtx interruptAt 2)
        (namespaceOf opts configNamespace) name with
      | some e => simp
      | none => simp

/-- C3, instance: in the example session with a failing delete request `run` still returns
nil. -/
theorem run_result_ignores_delete_witness :
    (createOutcome exampleOpts "default" exampleSession).2 = none ∧
      waitOutcome exampleOpts "default" exampleSession none = none ∧
      attachOutcome exampleOpts "default" exampleSession none = none ∧
      (run exampleOpts "default"
        { exampleSession with Delete := fun _ _ _ => some errCanceled } none).1 = none :=
  ⟨by decide, by decide, by decide,
    (run_result_ignores_delete exampleOpts "default" exampleSession none
      (fun _ _ _ => some errCanceled) (fun _ _ _ => none)).2.1
      (by decide) (by decide) (by decide)⟩

/-! ## Properties of `WaitForPodRunningWithTimeout` -/

theorem waitLoop_skips (pre : List String) (tail : List (Except GoError String)) (polls : Nat)
    (hpre : ∀ q ∈ pre, q = PodPending ∨ unrecognizedPhase q) :
    waitLoop (pre.map Except.ok ++ tail) polls = waitLoop tail (polls + pre.length) := by
  induction pre generalizing polls with
  | nil => simp
  | cons q pre ih =>
    have hq := hpre q (List.mem_cons_self q pre)
    have hrest : ∀ r ∈ pre, r = PodPending ∨ unrecognizedPhase r :=
      fun r hr => hpre r (List.mem_cons_of_mem q hr)
    have hstep : waitLoop (Except.ok q :: (pre.map Except.ok ++ tail)) polls =
        waitLoop (pre.map Except.ok ++ tail) (polls + 1) := by
      rcases hq with hq | hq
      · subst hq
        simp [waitLoop, PodPending, PodRunning]
      · simp only [unrecognizedPhase, List.mem_cons, List.mem_singleton, List.not_mem_nil,
          not_or, or_false] at hq
        obtain ⟨h1, h2, h3, h4, h5⟩ := hq
        simp [waitLoop, h1, h2, h3, h4, h5]
    simp only [List.map_cons, List.cons_append, hstep, ih (polls + 1) hrest, List.length_cons]
    congr 1
    omega

/-- C4: against a script of successfully fetched phases, the wait is decided by the first
observation that is neither Pending nor unrecognized: when it is Running the call returns nil
after exactly that many observations, when it is Succeeded, Failed or Unknown the call returns
an error wrapping `ErrInvalidPodStatus` after exactly that many observations; what the script
holds after it is never fetched. -/
theorem wait_decided_by_first_decisive_phase (pre : List String) (p : String)
    (rest : List (Except GoError String))
    (hpre : ∀ q ∈ pre, q = PodPending ∨ unrecognizedPhase q) :
    (p = PodRunning →
      WaitForPodRunningWithTimeout (pre.map Except.ok ++ Except.ok p :: rest) =
        (WaitResult.returned none, pre.length + 1)) ∧
    (p = PodSucceeded ∨ p = PodFailed ∨ p = PodUnknown →
      ∃ err, WaitForPodRunningWithTimeout (pre.map Except.ok ++ Except.ok p :: rest) =
          (WaitResult.returned (some err), pre.length + 1) ∧
        err.Is ErrInvalidPodStatus = true ∧
        err.Error = "invalid pod status: pod entered terminal phase: " ++ p) := by
  unfold WaitForPodRunningWithTimeout
  rw [waitLoop_skips pre _ 0 hpre]
  constructor
  · intro hp
    subst hp
    simp [waitLoop]
  · intro hp
    refine ⟨errorfW "" ErrInvalidPodStatus (": pod entered terminal phase: " ++ p), ?_, ?_, ?_⟩
    · rcases hp with hp | hp | hp <;> subst hp <;>
        simp [waitLoop, PodRunning, PodPending, PodSucceeded, PodFailed, PodUnknown]
    · simp [errorfW, GoError.Is, ErrInvalidPodStatus]
    · simp only [errorfW, GoError.Error, ErrInvalidPodStatus]
      rw [String.append_assoc]
      rfl

/-- C4, instance: Pending, Pending, Running gives success after 3 observations, and Pending,
Failed gives a failure wrapping `ErrInvalidPodStatus` after 2; the observation scripted after
the deciding one is not fetched. -/
theorem wait_decided_by_first_decisive_phase_witness :
    (∀ q ∈ [PodPending, PodPending], q = PodPending ∨ unrecognizedPhase q) ∧
      (∀ q ∈ [PodPending], q = PodPending ∨ unrecognizedPhase q) ∧
      WaitForPodRunningWithTimeout
          [Except.ok PodPending, Except.ok PodPending, Except.ok PodRunning, Except.ok PodFailed] =
        (WaitResult.returned none, 3) ∧
      ∃ err, WaitForPodRunningWithTimeout
            [Except.ok PodPending, Except.ok PodFailed, Except.ok PodRunning] =
          (WaitResult.returned (some err), 2) ∧
        err.Is ErrInvalidPodStatus = true ∧
        err.Error = "invalid pod status: pod entered terminal phase: " ++ PodFailed :=
  ⟨by simp, by simp,
    (wait_decided_by_first_decisive_phase [PodPending, PodPending] PodRunning
      [Except.ok PodFailed] (by simp)).1 rfl,
    (wait_decided_by_first_decisive_phase [PodPending] PodFailed
      [Except.ok PodRunning] (by simp)).2 (Or.inr (Or.inl rfl))⟩

/-! ## Properties of `strings.SplitN` -/

theorem indexChar_eq_none_iff (sep : Char) (s : List Char) :
    indexChar sep s = none ↔ sep ∉ s := by
  induction s with
  | nil => simp [indexChar]
  | cons c cs ih =>
    by_cases h : c = sep
    · simp [indexChar, h]
    · have h2 : ¬ sep = c := fun e => h e.symm
      simp [indexChar, h, h2, ih]

theorem indexChar_eq_some (sep : Char) (s : List Char) (m : Nat) (h : indexChar sep s = some m) :
    s.take m = s.takeWhile (fun c => decide (c ≠ sep)) ∧
      s.drop (m + 1) = (s.dropWhile (fun c => decide (c ≠ sep))).drop 1 := by
  induction s generalizing m with
  | nil => simp [indexChar] at h
  | cons c cs ih =>
    by_cases hc : c = sep
    · simp [indexChar, hc] at h
      subst h
      simp [hc, List.takeWhile, List.dropWhile]
    · simp only [indexChar, hc, if_false] at h
      cases hi : indexChar sep cs with
      | none => simp [hi] at h
      | some m0 =>
      simp only [hi, Option.map, Option.some.injEq] at h
      subst h
      have := ih m0 hi
      simp [hc, List.takeWhile, List.dropWhile, this.1, this.2]

theorem splitLoop_succ_of_length_le (sep : Char) (k : Nat) (s : List Char)
    (h : s.length ≤ k) : splitLoop sep (k + 1) s = splitLoop sep k s := by
  induction k generalizing s with
  | zero =>
    have hs : s = [] := List.length_eq_zero.mp (Nat.le_zero.mp h)
    subst hs
    simp [splitLoop, indexChar]
  | succ k ih =>
    rw [splitLoop, splitLoop]
    cases hi : indexChar sep s with
    | none => rfl
    | some m =>
      simp only []
      rw [ih]
      simp only [List.length_drop]
      omega

theorem splitLoop_add_of_length_le (sep : Char) (s : List Char) (d : Nat) :
    splitLoop sep (s.length + d) s = splitLoop sep s.length s := by
  induction d with
  | zero => rfl
  | succ d ih =>
    rw [← Nat.add_assoc, splitLoop_succ_of_length_le sep (s.length + d) s (Nat.le_add_right _ _)]
    exact ih

/-- The cap `n ≤ len(s) + 1` of `genSplit` does not change the result: `SplitN` cuts at the
first `n - 1` separators. -/
theorem SplitN_succ (s : String) (sep : Char) (n : Nat) :
    SplitN s sep (n + 1) = (splitLoop sep n s.data).map String.mk := by
  unfold SplitN
  simp only [Nat.succ_ne_zero, if_false]
  congr 1
  by_cases h : n ≤ s.data.length
  · have : min (n + 1) (s.data.length + 1) - 1 = n := by omega
    rw [this]
  · have h1 : min (n + 1) (s.data.length + 1) - 1 = s.data.length := by omega
    have h2 : n = s.data.length + (n - s.data.length) := by omega
    rw [h1, h2, splitLoop_add_of_length_le]

/-! ## Properties of `parseKVPairs` -/

/-- An item with an "=" is its key, the "=", and its value, and the key holds no "=". -/
theorem kvKey_kvValue (label : String) (h : '=' ∈ label.data) :
    label = kvKey label ++ "=" ++ kvValue label ∧ '=' ∉ (kvKey label).data := by
  have key : ∀ (l : List Char), '=' ∈ l →
      l = l.takeWhile (fun c => decide (c ≠ '=')) ++
        ('=' :: (l.dropWhile (fun c => decide (c ≠ '='))).drop 1) := by
    intro l
    induction l with
    | nil => simp
    | cons c cs ih =>
      intro hm
      by_cases hc : c = '='
      · simp [hc, List.takeWhile, List.dropWhile]
      · have hm2 : '=' ∈ cs := by
          rcases List.mem_cons.mp hm with h1 | h1
          · exact absurd h1.symm hc
          · exact h1
        have := ih hm2
        simp only [List.takeWhile, List.dropWhile, hc, ne_eq, not_false_eq_true, decide_True,
          List.cons_append]
        exact congrArg (List.cons c) this
  constructor
  · apply String.ext
    simp only [kvKey, kvValue, String.data_append]
    have := key label.data h
    simpa using this
  · simp only [kvKey]
    intro hmem
    have := List.mem_takeWhile_imp hmem
    simp at this

theorem SplitN_kv (label : String) :
    SplitN label '=' 2 =
      if '=' ∈ label.data then [kvKey label, kvValue label] else [label] := by
  rw [SplitN_succ, splitLoop]
  cases hi : indexChar '=' label.data with
  | none =>
    have := (indexChar_eq_none_iff _ _).mp hi
    simp [this]
  | some m =>
    have hmem : '=' ∈ label.data := by
      by_contra hn
      rw [(indexChar_eq_none_iff _ _).mpr hn] at hi
      exact Option.noConfusion hi
    have := indexChar_eq_some _ _ _ hi
    simp [hmem, splitLoop, kvKey, kvValue, this.1, this.2]

theorem parseKVPairsLoop_ok (labels : List String) (acc : StrMap)
    (h : ∀ l ∈ labels, '=' ∈ l.data) :
    parseKVPairsLoop acc labels = (some (kvFold acc labels), none) := by
  induction labels generalizing acc with
  | nil => simp [parseKVPairsLoop, kvFold]
  | cons l rest ih =>
    have hl := h l (List.mem_cons_self l rest)
    have hrest : ∀ x ∈ rest, '=' ∈ x.data := fun x hx => h x (List.mem_cons_of_mem l hx)
    simp only [parseKVPairsLoop, SplitN_kv, hl, if_true]
    simp only [List.length_cons, List.length_nil, ne_eq, not_true_eq_false, if_false]
    rw [ih _ hrest]
    simp [kvFold, List.getD]

theorem parseKVPairsLoop_err (pre : List String) (l : String) (post : List String)
    (acc : StrMap) (hpre : ∀ x ∈ pre, '=' ∈ x.data) (hl : '=' ∉ l.data) :
    parseKVPairsLoop acc (pre ++ l :: post) =
      (none, some (errorfW "" ErrInvalidArg (": invalid kv format: " ++ l))) := by
  induction pre generalizing acc with
  | nil => simp [parseKVPairsLoop, SplitN_kv, hl]
  | cons x pre ih =>
    have hx := hpre x (List.mem_cons_self x pre)
    have hrest : ∀ y ∈ pre, '=' ∈ y.data := fun y hy => hpre y (List.mem_cons_of_mem x hy)
    simp only [List.cons_append, parseKVPairsLoop, SplitN_kv, hx, if_true]
    simp only [List.length_cons, List.length_nil, ne_eq, not_true_eq_false, if_false]
    exact ih _ hrest

/-- Every list either has only items with an "=", or splits at its first item without one. -/
theorem first_without_eq (labels : List String) :
    (∀ l ∈ labels, '=' ∈ l.data) ∨
      ∃ pre l post, labels = pre ++ l :: post ∧ (∀ x ∈ pre, '=' ∈ x.data) ∧ '=' ∉ l.data := by
  induction labels with
  | nil => left; simp
  | cons x rest ih =>
    by_cases hx : '=' ∈ x.data
    · rcases ih with h | ⟨pre, l, post, h1, h2, h3⟩
      · left
        intro l hl
        rcases List.mem_cons.mp hl with e | e
        · rw [e]; exact hx
        · exact h l e
      · right
        refine ⟨x :: pre, l, post, by simp [h1], ?_, h3⟩
        intro y hy
        rcases List.mem_cons.mp hy with e | e
        · rw [e]; exact hx
        · exact h2 y e
    · right
      exact ⟨[], x, rest, rfl, by simp, hx⟩

theorem mapGet_mapSet (m : StrMap) (k v k' : String) :
    mapGet (mapSet m k v) k' = if k = k' then some v else mapGet m k' := by
  induction m with
  | nil => simp [mapSet, mapGet]
  | cons e m ih =>
    obtain ⟨k0, v0⟩ := e
    by_cases h0 : k0 = k
    · subst h0
      by_cases h1 : k0 = k' <;> simp [mapSet, mapGet, h1]
    · by_cases h1 : k0 = k'
      · subst h1
        have h2 : ¬ k = k0 := fun e => h0 e.symm
        simp [mapSet, mapGet, h0, h2]
      · simp [mapSet, mapGet, h0, h1, ih]

theorem mem_keys_mapSet (m : StrMap) (k v k' : String) :
    k' ∈ (mapSet m k v).map Prod.fst ↔ k' = k ∨ k' ∈ m.map Prod.fst := by
  induction m with
  | nil => simp [mapSet]
  | cons e m ih =>
    obtain ⟨k0, v0⟩ := e
    by_cases h0 : k0 = k
    · subst h0
      simp [mapSet]
    · simp only [mapSet, h0, if_false, List.map_cons, List.mem_cons, ih]
      tauto

theorem nodup_keys_mapSet (m : StrMap) (k v : String) (h : (m.map Prod.fst).Nodup) :
    ((mapSet m k v).map Prod.fst).Nodup := by
  induction m with
  | nil => simp [mapSet]
  | cons e m ih =>
    obtain ⟨k0, v0⟩ := e
    simp only [List.map_cons, List.nodup_cons] at h
    by_cases h0 : k0 = k
    · subst h0
      simp only [mapSet, if_true, List.map_cons, List.nodup_cons]
      exact h
    · simp only [mapSet, h0, if_false, List.map_cons, List.nodup_cons]
      refine ⟨?_, ih h.2⟩
      intro hmem
      rcases (mem_keys_mapSet m k v k0).mp hmem with e | e
      · exact h0 e
      · exact h.1 e

theorem mapGet_kvFold (labels : List String) (acc : StrMap) (k : String) :
    mapGet (kvFold acc labels) k =
      ((labels.reverse.find? (fun l => decide (kvKey l = k))).map kvValue).or (mapGet acc k) := by
  induction labels generalizing acc with
  | nil => simp [kvFold]
  | cons l rest ih =>
    have hstep : kvFold acc (l :: rest) = kvFold (mapSet acc (kvKey l) (kvValue l)) rest := rfl
    rw [hstep, ih, mapGet_mapSet, List.reverse_cons, List.find?_append]
    cases hfind : rest.reverse.find? (fun l => decide (kvKey l = k)) with
    | some l0 => simp
    | none =>
      by_cases hk : kvKey l = k <;> simp [hk, List.find?]

theorem mem_keys_kvFold (labels : List String) (acc : StrMap) (k : String) :
    k ∈ (kvFold acc labels).map Prod.fst ↔ k ∈ acc.map Prod.fst ∨ k ∈ labels.map kvKey := by
  induction labels generalizing acc with
  | nil => simp [kvFold]
  | cons l rest ih =>
    have hstep : kvFold acc (l :: rest) = kvFold (mapSet acc (kvKey l) (kvValue l)) rest := rfl
    rw [hstep, ih, mem_keys_mapSet]
    simp only [List.map_cons, List.mem_cons]
    tauto

theorem nodup_keys_kvFold (labels : List String) (acc : StrMap)
    (h : (acc.map Prod.fst).Nodup) : ((kvFold acc labels).map Prod.fst).Nodup := by
  induction labels generalizing acc with
  | nil => simpa [kvFold] using h
  | cons l rest ih => exact ih _ (nodup_keys_mapSet acc _ _ h)

theorem length_kvFold (labels : List String) :
    (kvFold [] labels).length = ((labels.map kvKey).dedup).length := by
  have h1 : ((kvFold [] labels).map Prod.fst).Nodup := nodup_keys_kvFold labels [] (by simp)
  have h2 : ((kvFold [] labels).map Prod.fst).Perm ((labels.map kvKey).dedup) := by
    rw [List.perm_ext_iff_of_nodup h1 (List.nodup_dedup _)]
    intro k
    rw [mem_keys_kvFold, List.mem_dedup]
    simp
  have := h2.length_eq
  simpa using this

/-- C5, as stated, fails: two items with the same key give one entry, not two. -/
theorem parseKVPairs_one_entry_per_item_counterexample :
    ¬ (∀ labels : List String, labels ≠ [] → (∀ l ∈ labels, '=' ∈ l.data) →
        ∃ m, parseKVPairs labels = (some m, none) ∧ m.length = labels.length) := by
  intro h
  obtain ⟨m, hm, hlen⟩ := h ["a=1", "a=2"] (by decide) (by decide)
  have hval : parseKVPairs ["a=1", "a=2"] = (some [("a", "2")], none) := by decide
  rw [hval] at hm
  simp only [Prod.mk.injEq, Option.some.injEq, and_true] at hm
  subst hm
  simp at hlen

/-- C5, amended: for a non-empty list of items that each hold an "=", `parseKVPairs` succeeds
and returns a non-empty map with exactly one entry per distinct key, the key of an item being
its text before the first "="; a key is mapped to everything after the first "=" of the last
item with that key; and when the keys of the items are pairwise distinct the map has as many
entries as the list has items, the entry of each item holding its value. -/
theorem parseKVPairs_entries (labels : List String) (hne : labels ≠ [])
    (heq : ∀ l ∈ labels, '=' ∈ l.data) :
    ∃ m, parseKVPairs labels = (some m, none) ∧ m ≠ [] ∧
      (m.map Prod.fst).Nodup ∧
      m.length = ((labels.map kvKey).dedup).length ∧
      (∀ k, mapGet m k =
        (labels.reverse.find? (fun l => decide (kvKey l = k))).map kvValue) ∧
      ((labels.map kvKey).Nodup →
        m.length = labels.length ∧ ∀ l ∈ labels, mapGet m (kvKey l) = some (kvValue l)) := by
  have hget : ∀ k, mapGet (kvFold [] labels) k =
      (labels.reverse.find? (fun l => decide (kvKey l = k))).map kvValue := by
    intro k
    rw [mapGet_kvFold]
    simp [mapGet]
  have hlen := length_kvFold labels
  refine ⟨kvFold [] labels, parseKVPairsLoop_ok labels [] heq, ?_,
    nodup_keys_kvFold labels [] (by simp), hlen, hget, ?_⟩
  · intro hnil
    obtain ⟨l, rest, rfl⟩ := List.exists_cons_of_ne_nil hne
    have hmem : kvKey l ∈ (kvFold [] (l :: rest)).map Prod.fst :=
      (mem_keys_kvFold (l :: rest) [] (kvKey l)).mpr (Or.inr (by simp))
    rw [hnil] at hmem
    simp at hmem
  · intro hnd
    refine ⟨by rw [hlen, hnd.dedup, List.length_map], ?_⟩
    intro l hl
    rw [hget]
    cases hfind : labels.reverse.find? (fun l0 => decide (kvKey l0 = kvKey l)) with
    | none =>
      have := List.find?_eq_none.mp hfind l (List.mem_reverse.mpr hl)
      simp at this
    | some l0 =>
      have hl0 : l0 ∈ labels := List.mem_reverse.mp (List.mem_of_find?_eq_some hfind)
      have hk : kvKey l0 = kvKey l := by
        have := List.find?_some hfind
        simpa using this
      have : l0 = l := List.inj_on_of_nodup_map hnd hl0 hl hk
      simp [this]

/-- C5, instance: three items with distinct keys, one value holding a further "=". -/
theorem parseKVPairs_entries_witness :
    ["a=1", "b=2=3", "c="] ≠ [] ∧ (∀ l ∈ ["a=1", "b=2=3", "c="], '=' ∈ l.data) ∧
      ∃ m, parseKVPairs ["a=1", "b=2=3", "c="] = (some m, none) ∧ m ≠ [] ∧
        (m.map Prod.fst).Nodup ∧
        m.length = ((["a=1", "b=2=3", "c="].map kvKey).dedup).length ∧
        (∀ k, mapGet m k =
          (["a=1", "b=2=3", "c="].reverse.find? (fun l => decide (kvKey l = k))).map kvValue) ∧
        ((["a=1", "b=2=3", "c="].map kvKey).Nodup →
          m.length = ["a=1", "b=2=3", "c="].length ∧
            ∀ l ∈ ["a=1", "b=2=3", "c="], mapGet m (kvKey l) = some (kvValue l)) :=
  ⟨by decide, by decide, parseKVPairs_entries ["a=1", "b=2=3", "c="] (by decide) (by decide)⟩

/-- C6, as stated, fails: the message of the error is not "invalid kv format: a" but carries
the message of `ErrInvalidArg` in front. -/
theorem parseKVPairs_message_counterexample :
    (parseKVPairs ["a"]).2.map GoError.Error ≠ some ("invalid kv format: " ++ "a") ∧
      (parseKVPairs ["a"]).2.map GoError.Error = some "invalid argument: invalid kv format: a" := by
  decide

/-- C6, amended: `parseKVPairs` returns an error exactly when some item holds no "="; then it
returns a nil map together with an error that wraps `ErrInvalidArg` and whose message is
"invalid argument: invalid kv format: " followed by the first such item. -/
theorem parseKVPairs_error (labels : List String) :
    ((parseKVPairs labels).2 ≠ none ↔ ∃ l ∈ labels, '=' ∉ l.data) ∧
      (∀ pre l post, labels = pre ++ l :: post → (∀ x ∈ pre, '=' ∈ x.data) → '=' ∉ l.data →
        ∃ err, parseKVPairs labels = (none, some err) ∧ err.Is ErrInvalidArg = true ∧
          err.Error = "invalid argument: invalid kv format: " ++ l) := by
  have herr : ∀ pre l post, labels = pre ++ l :: post → (∀ x ∈ pre, '=' ∈ x.data) →
      '=' ∉ l.data →
      ∃ err, parseKVPairs labels = (none, some err) ∧ err.Is ErrInvalidArg = true ∧
        err.Error = "invalid argument: invalid kv format: " ++ l := by
    intro pre l post hsplit hpre hl
    refine ⟨errorfW "" ErrInvalidArg (": invalid kv format: " ++ l), ?_, ?_, ?_⟩
    · rw [hsplit]
      exact parseKVPairsLoop_err pre l post [] hpre hl
    · simp [errorfW, GoError.Is, ErrInvalidArg]
    · simp only [errorfW, GoError.Error, ErrInvalidArg]
      rw [String.append_assoc]
      rfl
  refine ⟨?_, herr⟩
  rcases first_without_eq labels with hall | ⟨pre, l, post, hsplit, hpre, hl⟩
  · have hok : parseKVPairs labels = (some (kvFold [] labels), none) :=
      parseKVPairsLoop_ok labels [] hall
    rw [hok]
    constructor
    · intro h
      exact absurd rfl h
    · rintro ⟨l, hl, hno⟩
      exact absurd (hall l hl) hno
  · obtain ⟨err, hpair, -, -⟩ := herr pre l post hsplit hpre hl
    rw [hpair]
    constructor
    · intro _
      exact ⟨l, by rw [hsplit]; simp, hl⟩
    · intro _
      simp

/-- C6, instance: the second of three items lacks "="; the well-formed first item is not
returned. -/
theorem parseKVPairs_error_witness :
    (∀ x ∈ ["a=1"], '=' ∈ x.data) ∧ '=' ∉ "b".data ∧
      ∃ err, parseKVPairs ["a=1", "b", "c"] = (none, some err) ∧ err.Is ErrInvalidArg = true ∧
        err.Error = "invalid argument: invalid kv format: " ++ "b" :=
  ⟨by decide, by decide,
    (parseKVPairs_error ["a=1", "b", "c"]).2 ["a=1"] "b" ["c"] rfl (by decide) (by decide)⟩

/-! ## Properties of `parseTolerations` -/

theorem splitOn_of_indexChar_none (sep : Char) (s : List Char) (h : indexChar sep s = none) :
    s.splitOn sep = [s] := by
  induction s with
  | nil => rfl
  | cons c cs ih =>
    by_cases hc : c = sep
    · simp [indexChar, hc] at h
    · have hcs : indexChar sep cs = none := by
        cases hi : indexChar sep cs with
        | none => rfl
        | some m => simp [indexChar, hc, hi] at h
      have := ih hcs
      simp only [List.splitOn] at this ⊢
      rw [List.splitOnP_cons, this]
      simp [hc]

theorem splitOn_of_indexChar_some (sep : Char) (s : List Char) (m : Nat)
    (h : indexChar sep s = some m) :
    s.splitOn sep = s.take m :: (s.drop (m + 1)).splitOn sep := by
  induction s generalizing m with
  | nil => simp [indexChar] at h
  | cons c cs ih =>
    by_cases hc : c = sep
    · simp [indexChar, hc] at h
      subst h
      simp only [List.splitOn]
      rw [List.splitOnP_cons]
      simp [hc]
    · simp only [indexChar, hc, if_false] at h
      cases hi : indexChar sep cs with
      | none => simp [hi] at h
      | some m0 =>
        simp only [hi, Option.map, Option.some.injEq] at h
        subst h
        have := ih m0 hi
        simp only [List.splitOn] at this ⊢
        rw [List.splitOnP_cons, this]
        simp [hc]

/-- The loop of `genSplit` with `k` cuts allowed returns all fields when there are at most `k`
of them, and else the first `k` fields followed by the rest of the string. -/
theorem splitLoop_eq_splitOn (sep : Char) (k : Nat) (s : List Char) :
    splitLoop sep k s =
      if (s.splitOn sep).length ≤ k then s.splitOn sep
      else (s.splitOn sep).take k ++ [[sep].intercalate ((s.splitOn sep).drop k)] := by
  induction k generalizing s with
  | zero =>
    have hne : s.splitOn sep ≠ [] := List.splitOnP_ne_nil _ _
    have hlen : ¬ (s.splitOn sep).length ≤ 0 := by
      rw [Nat.le_zero, List.length_eq_zero]
      exact hne
    simp only [splitLoop, hlen, if_false, List.take_zero, List.drop_zero, List.nil_append,
      List.intercalate_splitOn]
  | succ k ih =>
    rw [splitLoop]
    cases hi : indexChar sep s with
    | none => simp [splitOn_of_indexChar_none sep s hi]
    | some m =>
      simp only []
      rw [splitOn_of_indexChar_some sep s m hi, ih]
      by_cases hl : ((s.drop (m + 1)).splitOn sep).length ≤ k
      · simp [hl]
      · simp [hl]

theorem toleration_of_SplitN (toleration : String) :
    ¬ (SplitN toleration ':' 4).length < 1 ∧
      ({ Key := lookup (SplitN toleration ':' 4) 0 ""
         Operator := lookup (SplitN toleration ':' 4) 1 ""
         Value := lookup (SplitN toleration ':' 4) 2 ""
         Effect := lookup (SplitN toleration ':' 4) 3 "" } : Toleration) =
        tolerationOfString toleration := by
  rw [SplitN_succ, splitLoop_eq_splitOn]
  unfold tolerationOfString colonFields
  have hne : toleration.data.splitOn ':' ≠ [] := List.splitOnP_ne_nil _ _
  generalize toleration.data.splitOn ':' = fs at hne
  have hmk : String.mk [] = "" := rfl
  have hnil : ([':'] : List Char).intercalate [] = [] := rfl
  rcases fs with _ | ⟨a, _ | ⟨b, _ | ⟨c, _ | ⟨d, rest⟩⟩⟩⟩
  · exact absurd rfl hne
  · simp [lookup, hmk, hnil]
  · simp [lookup, hmk, hnil]
  · simp [lookup, hmk, hnil]
  · by_cases hr : rest = []
    · subst hr
      simp [lookup, hmk]
    · have : ¬ (rest.length + 1 + 1 + 1 + 1 ≤ 3) := by omega
      simp [lookup, hmk, this]

theorem parseTolerationsLoop_eq (tolerations : List String) (acc : List Toleration) :
    parseTolerationsLoop acc tolerations =
      (some (acc ++ tolerations.map tolerationOfString), none) := by
  induction tolerations generalizing acc with
  | nil => simp [parseTolerationsLoop]
  | cons t rest ih =>
    have h := toleration_of_SplitN t
    simp only [parseTolerationsLoop, h.1, if_false, h.2]
    rw [ih]
    simp

/-- A string with at most four ":"-separated fields has nothing after its fourth field. -/
theorem tolerationOfString_eq_of_fields (t : String) (h : (colonFields t).length ≤ 4) :
    tolerationOfString t = tolerationOfFields t := by
  unfold tolerationOfString tolerationOfFields
  generalize colonFields t = fs at h
  rcases fs with _ | ⟨a, _ | ⟨b, _ | ⟨c, _ | ⟨d, _ | ⟨e, rest⟩⟩⟩⟩⟩
  · rfl
  · rfl
  · rfl
  · rfl
  · simp [List.intercalate]
  · simp at h

/-- C7, as stated, fails: in "a:b:c:d:e" the fourth ":"-separated field is "d", and the effect
of the toleration returned is "d:e". -/
theorem parseTolerations_fourth_field_counterexample :
    parseTolerations ["a:b:c:d:e"] ≠ (some (["a:b:c:d:e"].map tolerationOfFields), none) ∧
      (tolerationOfFields "a:b:c:d:e").Effect = "d" ∧
      parseTolerations ["a:b:c:d:e"] =
        (some [{ Key := "a", Operator := "b", Value := "c", Effect := "d:e" }], none) := by
  decide

/-- C7, amended: for every list of strings `parseTolerations` returns no error and exactly one
toleration per string, in input order, whose key, operator and value are the first, second and
third ":"-separated fields of the string and whose effect is everything after the third ":",
each part the string does not supply being empty; for strings of at most four fields the
effect is the fourth field. -/
theorem parseTolerations_eq (tolerations : List String) :
    parseTolerations tolerations = (some (tolerations.map tolerationOfString), none) ∧
      ((∀ t ∈ tolerations, (colonFields t).length ≤ 4) →
        parseTolerations tolerations = (some (tolerations.map tolerationOfFields), none)) := by
  have h1 : parseTolerations tolerations = (some (tolerations.map tolerationOfString), none) := by
    unfold parseTolerations
    rw [parseTolerationsLoop_eq]
    simp
  refine ⟨h1, ?_⟩
  intro hall
  rw [h1]
  have : tolerations.map tolerationOfString = tolerations.map tolerationOfFields :=
    List.map_congr_left fun t ht => tolerationOfString_eq_of_fields t (hall t ht)
  rw [this]

/-- C7, instance: "k" gives key "k" and three empty fields, "k:Equal" gives key "k", operator
"Equal", empty value and effect. -/
theorem parseTolerations_eq_witness :
    (∀ t ∈ ["k", "k:Equal", "k:Equal:v:NoSchedule"], (colonFields t).length ≤ 4) ∧
      parseTolerations ["k", "k:Equal", "k:Equal:v:NoSchedule"] =
        (some [{ Key := "k", Operator := "", Value := "", Effect := "" },
          { Key := "k", Operator := "Equal", Value := "", Effect := "" },
          { Key := "k", Operator := "Equal", Value := "v", Effect := "NoSchedule" }], none) :=
  ⟨by decide,
    ((parseTolerations_eq ["k", "k:Equal", "k:Equal:v:NoSchedule"]).2 (by decide)).trans
      (by decide)⟩

/-! ## Properties of the pod object built by `CreatePod` -/

theorem setQuantity_eq {Q : Type} (MustParse : String → Option Q) (list : GoMap Q) (set : Bool)
    (name s : String) :
    setQuantity MustParse list set name s =
      if s = "" then some (list, set) else
        match MustParse s with
        | none => none
        | some q => some (mapSet list name q, true) := by
  unfold setQuantity
  by_cases h : s = "" <;> simp [h]

/-- The resource blocks of `CreatePod` return normally exactly when the quantities are valid,
and then the container carries the two resource lists. -/
theorem applyResources_eq {Q : Type} (MustParse : String → Option Q) (opts : createPodOptions)
    (pod : Pod Q) (c : Container Q) (hc : pod.Spec.Containers = [c])
    (hres : c.Resources = { Limits := none, Requests := none }) :
    (ValidQuantities MustParse opts →
      applyResources MustParse opts pod = Outcome.value
        { pod with Spec := { pod.Spec with Containers := [{ c with Resources :=
          { Requests := quantityList MustParse opts.requestsCPU opts.requestsMem
            Limits := quantityList MustParse opts.limitsCPU opts.limitsMem } }] } }) ∧
    (¬ ValidQuantities MustParse opts →
      applyResources MustParse opts pod = Outcome.panicked) := by
  obtain ⟨⟨om⟩, ⟨cs, rp, ad, tol, nsel, sa⟩⟩ := pod
  simp only at hc
  subst hc
  obtain ⟨cn, ci, cc, cstdin, ctty, cres, cenv⟩ := c
  simp only at hres
  subst hres
  unfold ValidQuantities applyResources quantityList quantityEntries setContainer0
  simp only [setQuantity_eq]
  have hne : ¬ ResourceCPU = ResourceMemory := by decide
  by_cases h1 : opts.requestsCPU = "" <;> by_cases h2 : opts.requestsMem = "" <;>
    by_cases h3 : opts.limitsCPU = "" <;> by_cases h4 : opts.limitsMem = "" <;>
    cases h5 : MustParse opts.requestsCPU <;> cases h6 : MustParse opts.requestsMem <;>
    cases h7 : MustParse opts.limitsCPU <;> cases h8 : MustParse opts.limitsMem <;>
    simp [h1, h2, h3, h4, h5, h6, h7, h8, mapSet, hne]

theorem kvFold_eq_nil_iff (labels : List String) : kvFold [] labels = [] ↔ labels = [] := by
  constructor
  · intro hnil
    cases labels with
    | nil => rfl
    | cons l rest =>
      have hmem : kvKey l ∈ (kvFold [] (l :: rest)).map Prod.fst :=
        (mem_keys_kvFold (l :: rest) [] (kvKey l)).mpr (Or.inr (by simp))
      rw [hnil] at hmem
      simp at hmem
  · intro h
    subst h
    rfl

theorem parseKVPairs_ok (labels : List String) (h : ∀ l ∈ labels, '=' ∈ l.data) :
    parseKVPairs labels = (some (kvFold [] labels), none) :=
  parseKVPairsLoop_ok labels [] h

theorem parseKVPairs_bad (labels : List String) (h : ¬ ∀ l ∈ labels, '=' ∈ l.data) :
    ∃ err, parseKVPairs labels = (none, some err) := by
  rcases first_without_eq labels with hall | ⟨pre, l, post, hsplit, hpre, hl⟩
  · exact absurd hall h
  · exact ⟨_, by rw [hsplit]; exact parseKVPairsLoop_err pre l post [] hpre hl⟩

theorem parseTolerations_ok (tolerations : List String) :
    parseTolerations tolerations = (some (tolerations.map tolerationOfString), none) := by
  unfold parseTolerations
  rw [parseTolerationsLoop_eq]
  simp

theorem buildPod_eq_of_lists {Q : Type} (MustParse : String → Option Q)
    (rangeOrder : StrMap → StrMap) (opts : createPodOptions)
    (hl : ∀ l ∈ opts.labels, '=' ∈ l.data) (hn : ∀ l ∈ opts.nodeSelector, '=' ∈ l.data) :
    buildPod MustParse rangeOrder opts =
      match applyResources MustParse opts (podBeforeResources opts) with
      | Outcome.panicked => Outcome.panicked
      | Outcome.error err => Outcome.error err
      | Outcome.value pod => applyEnv rangeOrder opts pod := by
  unfold buildPod
  simp only [parseKVPairs_ok _ hl, parseKVPairs_ok _ hn, parseTolerations_ok]
  by_cases h1 : opts.labels = [] <;> by_cases h2 : opts.tolerations = [] <;>
    by_cases h3 : opts.nodeSelector = [] <;> by_cases h4 : opts.serviceAccount = "" <;>
    simp [podBeforeResources, basePod, goLen, h1, h2, h3, h4, kvFold_eq_nil_iff,
      List.length_pos]

theorem buildPod_of_parse {Q : Type} (MustParse : String → Option Q)
    (rangeOrder : StrMap → StrMap) (opts : createPodOptions)
    (hl : ListsParse opts) (hq : ValidQuantities MustParse opts) :
    buildPod MustParse rangeOrder opts = Outcome.value (expectedPod MustParse rangeOrder opts) := by
  rw [buildPod_eq_of_lists MustParse rangeOrder opts hl.1 hl.2.1]
  rw [(applyResources_eq MustParse opts (podBeforeResources opts) _ rfl rfl).1 hq]
  simp only [applyEnv]
  by_cases he : opts.env = []
  · simp [he, expectedPod, podBeforeResources]
  · have hpos : opts.env.length > 0 := List.length_pos.mpr he
    simp [hpos, he, parseKVPairs_ok _ hl.2.2, expectedPod, podBeforeResources, setContainer0,
      envVarsOf]

theorem buildPod_value_inv {Q : Type} (MustParse : String → Option Q)
    (rangeOrder : StrMap → StrMap) (opts : createPodOptions) (pod : Pod Q)
    (hb : buildPod MustParse rangeOrder opts = Outcome.value pod) :
    ListsParse opts ∧ ValidQuantities MustParse opts := by
  have hl : ∀ l ∈ opts.labels, '=' ∈ l.data := by
    by_contra hbad
    obtain ⟨err, herr⟩ := parseKVPairs_bad _ hbad
    simp [buildPod, herr] at hb
  have hn : ∀ l ∈ opts.nodeSelector, '=' ∈ l.data := by
    by_contra hbad
    obtain ⟨err, herr⟩ := parseKVPairs_bad _ hbad
    simp [buildPod, parseKVPairs_ok _ hl, parseTolerations_ok, herr] at hb
  rw [buildPod_eq_of_lists MustParse rangeOrder opts hl hn] at hb
  have hq : ValidQuantities MustParse opts := by
    by_contra hbad
    rw [(applyResources_eq MustParse opts (podBeforeResources opts) _ rfl rfl).2 hbad] at hb
    simp at hb
  rw [(applyResources_eq MustParse opts (podBeforeResources opts) _ rfl rfl).1 hq] at hb
  refine ⟨⟨hl, hn, ?_⟩, hq⟩
  by_contra hbad
  obtain ⟨err, herr⟩ := parseKVPairs_bad _ hbad
  have hne : opts.env ≠ [] := by
    intro h
    rw [h] at hbad
    simp at hbad
  have hpos : opts.env.length > 0 := List.length_pos.mpr hne
  simp [applyEnv, hpos, herr] at hb

theorem quantityList_spec {Q : Type} (MustParse : String → Option Q) (cpu mem : String)
    (hcpu : cpu ≠ "" → MustParse cpu ≠ none) (hmem : mem ≠ "" → MustParse mem ≠ none) :
    (hasEntry (quantityList MustParse cpu mem) ResourceCPU ↔ cpu ≠ "") ∧
      (hasEntry (quantityList MustParse cpu mem) ResourceMemory ↔ mem ≠ "") ∧
      (cpu = "" ∧ mem = "" → quantityList MustParse cpu mem = none) ∧
      (cpu ≠ "" → mem = "" →
        ∃ q, MustParse cpu = some q ∧ quantityList MustParse cpu mem = some [(ResourceCPU, q)]) := by
  have hne : ¬ ResourceCPU = ResourceMemory := by decide
  have hne2 : ¬ ResourceMemory = ResourceCPU := by decide
  unfold hasEntry quantityList quantityEntries
  by_cases h1 : cpu = "" <;> by_cases h2 : mem = "" <;>
    cases h3 : MustParse cpu <;> cases h4 : MustParse mem <;>
    simp_all [mapGet]

/-- C8: when the lists parse and the resource strings are valid quantities, `CreatePod` builds
a pod with one container whose requests hold a cpu (memory) entry exactly when `requestsCPU`
(`requestsMem`) is not empty, likewise for the limits; a list with both inputs empty is not
set at all; and with only a CPU request the resources are one requests entry and no limits. -/
theorem buildPod_resources {Q : Type} (MustParse : String → Option Q)
    (rangeOrder : StrMap → StrMap) (opts : createPodOptions)
    (hl : ListsParse opts) (hq : ValidQuantities MustParse opts) :
    ∃ pod c, buildPod MustParse rangeOrder opts = Outcome.value pod ∧
      pod.Spec.Containers = [c] ∧
      (hasEntry c.Resources.Requests ResourceCPU ↔ opts.requestsCPU ≠ "") ∧
      (hasEntry c.Resources.Requests ResourceMemory ↔ opts.requestsMem ≠ "") ∧
      (hasEntry c.Resources.Limits ResourceCPU ↔ opts.limitsCPU ≠ "") ∧
      (hasEntry c.Resources.Limits ResourceMemory ↔ opts.limitsMem ≠ "") ∧
      (opts.requestsCPU = "" ∧ opts.requestsMem = "" → c.Resources.Requests = none) ∧
      (opts.limitsCPU = "" ∧ opts.limitsMem = "" → c.Resources.Limits = none) ∧
      (opts.requestsCPU ≠ "" → opts.requestsMem = "" → opts.limitsCPU = "" →
        opts.limitsMem = "" →
        ∃ q, MustParse opts.requestsCPU = some q ∧
          c.Resources = { Requests := some [(ResourceCPU, q)], Limits := none }) := by
  have hreq := quantityList_spec MustParse opts.requestsCPU opts.requestsMem hq.1 hq.2.1
  have hlim := quantityList_spec MustParse opts.limitsCPU opts.limitsMem hq.2.2.1 hq.2.2.2
  refine ⟨expectedPod MustParse rangeOrder opts, _,
    buildPod_of_parse MustParse rangeOrder opts hl hq, rfl,
    hreq.1, hreq.2.1, hlim.1, hlim.2.1, hreq.2.2.1, hlim.2.2.1, ?_⟩
  intro h1 h2 h3 h4
  obtain ⟨q, hq1, hq2⟩ := hreq.2.2.2 h1 h2
  refine ⟨q, hq1, ?_⟩
  simp only [hq2, hlim.2.2.1 ⟨h3, h4⟩]

/-- C8, instance: only a CPU request of "100m". -/
theorem buildPod_resources_witness :
    ListsParse cpuOnlyOpts ∧ ValidQuantities exampleMustParse cpuOnlyOpts ∧
      ∃ pod c, buildPod exampleMustParse id cpuOnlyOpts = Outcome.value pod ∧
        pod.Spec.Containers = [c] ∧
        c.Resources = { Requests := some [(ResourceCPU, "100m")], Limits := none } := by
  have hl : ListsParse cpuOnlyOpts := ⟨by decide, by decide, by decide⟩
  have hq : ValidQuantities exampleMustParse cpuOnlyOpts :=
    ⟨by decide, by decide, by decide, by decide⟩
  obtain ⟨pod, c, hb, hc, -, -, -, -, -, -, hcpu⟩ :=
    buildPod_resources exampleMustParse id cpuOnlyOpts hl hq
  obtain ⟨q, hq1, hq2⟩ := hcpu (by decide) rfl rfl rfl
  have hq3 : q = "100m" := by
    have : exampleMustParse cpuOnlyOpts.requestsCPU = some "100m" := by decide
    rw [this] at hq1
    exact (Option.some.inj hq1).symm
  subst hq3
  exact ⟨hl, hq, pod, c, hb, hc, hq2⟩

/-- C10: when `CreatePod` gets as far as building the pod, each of the labels, the
tolerations, the node selector and the environment list of the container is either not set or
not empty, and it is set exactly when the corresponding option list is not empty. -/
theorem buildPod_no_empty_collections {Q : Type} (MustParse : String → Option Q)
    (rangeOrder : StrMap → StrMap) (opts : createPodOptions) (pod : Pod Q)
    (hro : ValidRangeOrder rangeOrder)
    (hb : buildPod MustParse rangeOrder opts = Outcome.value pod) :
    (absentOrNonEmpty pod.ObjectMeta.Labels ∧
      (pod.ObjectMeta.Labels ≠ none ↔ opts.labels ≠ [])) ∧
    (absentOrNonEmpty pod.Spec.Tolerations ∧
      (pod.Spec.Tolerations ≠ none ↔ opts.tolerations ≠ [])) ∧
    (absentOrNonEmpty pod.Spec.NodeSelector ∧
      (pod.Spec.NodeSelector ≠ none ↔ opts.nodeSelector ≠ [])) ∧
    (∃ c, pod.Spec.Containers = [c] ∧ absentOrNonEmpty c.Env ∧
      (c.Env ≠ none ↔ opts.env ≠ [])) := by
  obtain ⟨hl, hq⟩ := buildPod_value_inv MustParse rangeOrder opts pod hb
  rw [buildPod_of_parse MustParse rangeOrder opts hl hq] at hb
  have hpod : pod = expectedPod MustParse rangeOrder opts := (Outcome.value.inj hb).symm
  subst hpod
  have henv : opts.env ≠ [] → envVarsOf rangeOrder opts.env ≠ [] := by
    intro hne hnil
    have hlen := (hro (kvFold [] opts.env)).length_eq
    have h0 : (rangeOrder (kvFold [] opts.env)).length = 0 := by
      have := congrArg List.length hnil
      simpa [envVarsOf] using this
    rw [h0] at hlen
    exact hne ((kvFold_eq_nil_iff _).mp (List.length_eq_zero.mp hlen.symm))
  refine ⟨⟨?_, ?_⟩, ⟨?_, ?_⟩, ⟨?_, ?_⟩, _, rfl, ?_, ?_⟩
  · by_cases h : opts.labels = []
    · left; simp [expectedPod, h]
    · right; exact ⟨_, by simp [expectedPod, h], fun e => h ((kvFold_eq_nil_iff _).mp e)⟩
  · by_cases h : opts.labels = [] <;> simp [expectedPod, h]
  · by_cases h : opts.tolerations = []
    · left; simp [expectedPod, h]
    · right
      exact ⟨opts.tolerations.map tolerationOfString, by simp [expectedPod, h],
        by simpa using h⟩
  · by_cases h : opts.tolerations = [] <;> simp [expectedPod, h]
  · by_cases h : opts.nodeSelector = []
    · left; simp [expectedPod, h]
    · right; exact ⟨_, by simp [expectedPod, h], fun e => h ((kvFold_eq_nil_iff _).mp e)⟩
  · by_cases h : opts.nodeSelector = [] <;> simp [expectedPod, h]
  · by_cases h : opts.env = []
    · left; simp [h]
    · right; exact ⟨_, by simp [h], henv h⟩
  · by_cases h : opts.env = [] <;> simp [h]

/-- C10, instance: a pod with one label and two environment variables, no tolerations and no
node selector. -/
theorem buildPod_no_empty_collections_witness :
    ValidRangeOrder id ∧
      buildPod exampleMustParse id envOpts =
        Outcome.value (expectedPod exampleMustParse id envOpts) ∧
      (expectedPod exampleMustParse id envOpts).ObjectMeta.Labels = some [("app", "krun")] ∧
      (expectedPod exampleMustParse id envOpts).Spec.Tolerations = none ∧
      (absentOrNonEmpty (expectedPod exampleMustParse id envOpts).Spec.NodeSelector ∧
        ((expectedPod exampleMustParse id envOpts).Spec.NodeSelector ≠ none ↔
          envOpts.nodeSelector ≠ [])) :=
  ⟨fun m => List.Perm.refl m, by decide, by decide, by decide,
    (buildPod_no_empty_collections exampleMustParse id envOpts
      (expectedPod exampleMustParse id envOpts) (fun m => List.Perm.refl m) (by decide)).2.2.1⟩

theorem BuildsAgree_refl_of_not_value {Q : Type} (o : Outcome (Pod Q))
    (h : ∀ pod, o ≠ Outcome.value pod) : BuildsAgree o o := by
  cases o with
  | value pod => exact absurd rfl (h pod)
  | error err => simp [BuildsAgree]
  | panicked => simp [BuildsAgree]

/-- A build that does not produce a pod ends the same way whatever the iteration order. -/
theorem buildPod_eq_of_not_parse {Q : Type} (MustParse : String → Option Q)
    (ro1 ro2 : StrMap → StrMap) (opts : createPodOptions)
    (h : ¬ (ListsParse opts ∧ ValidQuantities MustParse opts)) :
    buildPod MustParse ro1 opts = buildPod MustParse ro2 opts := by
  by_cases hl : ∀ l ∈ opts.labels, '=' ∈ l.data
  · by_cases hn : ∀ l ∈ opts.nodeSelector, '=' ∈ l.data
    · rw [buildPod_eq_of_lists MustParse ro1 opts hl hn,
        buildPod_eq_of_lists MustParse ro2 opts hl hn]
      by_cases hq : ValidQuantities MustParse opts
      · rw [(applyResources_eq MustParse opts (podBeforeResources opts) _ rfl rfl).1 hq]
        have he : ¬ ∀ l ∈ opts.env, '=' ∈ l.data := fun he => h ⟨⟨hl, hn, he⟩, hq⟩
        obtain ⟨err, herr⟩ := parseKVPairs_bad _ he
        have hne : opts.env ≠ [] := by
          intro h0
          rw [h0] at he
          simp at he
        have hpos : opts.env.length > 0 := List.length_pos.mpr hne
        simp [applyEnv, hpos, herr]
      · rw [(applyResources_eq MustParse opts (podBeforeResources opts) _ rfl rfl).2 hq]
    · obtain ⟨err, herr⟩ := parseKVPairs_bad _ hn
      simp [buildPod, parseKVPairs_ok _ hl, parseTolerations_ok, herr]
  · obtain ⟨err, herr⟩ := parseKVPairs_bad _ hl
    simp [buildPod, herr]

/-- C9, as stated, fails: with two environment variables, two admissible iteration orders of
the environment map give pods whose environment lists are in different orders. -/
theorem buildPod_env_order_counterexample :
    ValidRangeOrder id ∧ ValidRangeOrder List.reverse ∧
      buildPod exampleMustParse id envOpts ≠ buildPod exampleMustParse List.reverse envOpts ∧
      (∃ pod c, buildPod exampleMustParse id envOpts = Outcome.value pod ∧
        pod.Spec.Containers = [c] ∧
        c.Env = some [{ Name := "A", Value := "1" }, { Name := "B", Value := "2" }]) ∧
      (∃ pod c, buildPod exampleMustParse List.reverse envOpts = Outcome.value pod ∧
        pod.Spec.Containers = [c] ∧
        c.Env = some [{ Name := "B", Value := "2" }, { Name := "A", Value := "1" }]) :=
  ⟨fun m => List.Perm.refl m, fun m => List.reverse_perm m, by decide,
    ⟨expectedPod exampleMustParse id envOpts, _, by decide, rfl, by decide⟩,
    ⟨expectedPod exampleMustParse List.reverse envOpts, _, by decide, rfl, by decide⟩⟩

/-- C9, amended: building the pod twice from the same options ends the same way both times
(the same error, a panic, or a pod), and the two pods are equal in every field and every list
except that the environment list of the container, which holds the same elements both times,
may come in a different order. -/
theorem buildPod_same_up_to_env_order {Q : Type} (MustParse : String → Option Q)
    (ro1 ro2 : StrMap → StrMap) (opts : createPodOptions)
    (h1 : ValidRangeOrder ro1) (h2 : ValidRangeOrder ro2) :
    BuildsAgree (buildPod MustParse ro1 opts) (buildPod MustParse ro2 opts) := by
  by_cases h : ListsParse opts ∧ ValidQuantities MustParse opts
  · rw [buildPod_of_parse MustParse ro1 opts h.1 h.2, buildPod_of_parse MustParse ro2 opts h.1 h.2]
    refine ⟨rfl, rfl, ?_⟩
    refine List.Forall₂.cons ⟨rfl, ?_⟩ List.Forall₂.nil
    by_cases he : opts.env = []
    · simp [he, SameEnv]
    · simp only [he, if_false, SameEnv, envVarsOf]
      exact ((h1 _).trans (h2 _).symm).map _
  · rw [buildPod_eq_of_not_parse MustParse ro1 ro2 opts h]
    apply BuildsAgree_refl_of_not_value
    intro pod hb
    exact h (buildPod_value_inv MustParse ro2 opts pod hb)

/-- C9, instance: the two builds of the example pod under the two iteration orders agree up to
the order of the environment list. -/
theorem buildPod_same_up_to_env_order_witness :
    ValidRangeOrder id ∧ ValidRangeOrder List.reverse ∧
      BuildsAgree (buildPod exampleMustParse id envOpts)
        (buildPod exampleMustParse List.reverse envOpts) :=
  ⟨fun m => List.Perm.refl m, fun m => List.reverse_perm m,
    buildPod_same_up_to_env_order exampleMustParse id List.reverse envOpts
      (fun m => List.Perm.refl m) (fun m => List.reverse_perm m)⟩

end Krun
